import Mathlib

/-
Verification of the step/action execution engine of benchbuild
(src/benchbuild/utils/actions.py).

The Python module is shallowly embedded: enum values become an inductive
type, the decorator to_step_result becomes a pure function on an explicit
representation of Python return values, mutable step state (status, the
number of callback invocations) is threaded explicitly, and exceptions
raised by child steps are represented as explicit outcome constructors.
-/

/-- StepResult (actions.py, class StepResult): result type for action
results, an IntEnum with UNSET = 0, OK = 1, CAN_CONTINUE = 2, ERROR = 3. -/
inductive StepResult where
  | UNSET
  | OK
  | CAN_CONTINUE
  | ERROR
deriving DecidableEq, Repr

/-- Integer value of a StepResult member (the IntEnum values). -/
def StepResult.toNat : StepResult → Nat
  | .UNSET => 0
  | .OK => 1
  | .CAN_CONTINUE => 2
  | .ERROR => 3

/-- Python max of two StepResult values (IntEnum ordering by value). -/
def srMax (a b : StepResult) : StepResult :=
  if a.toNat ≤ b.toNat then b else a

/-- Python max over a list of StepResult values, with UNSET for the
empty list (max([]) raises in Python; all call sites pass non-empty
lists because Experiment always owns its two Echo bookends). -/
def listMax (l : List StepResult) : StepResult :=
  l.foldl srMax .UNSET

/-- Possible return values of an unwrapped Step.__call__ body: None, a
scalar StepResult, or a list of StepResults (the type StepResultType in
actions.py). -/
inductive PyVal where
  | none
  | scalar (r : StepResult)
  | list (rs : List StepResult)
deriving DecidableEq, Repr

/-- Python truthiness test used by the line "if not res" in
to_step_result: None is falsy, a StepResult is falsy iff its integer
value is 0 (UNSET), a list is falsy iff it is empty. -/
def pyFalsy : PyVal → Bool
  | .none => true
  | .scalar r => r = .UNSET
  | .list rs => rs.isEmpty

/-- Second half of to_step_result: "if not hasattr(res, '__iter__'):
res = [res]".  A scalar is wrapped into a singleton list; a list is
already iterable.  The None branch is unreachable because None is falsy
and was replaced by [OK] before this point. -/
def ensureIterable : PyVal → List StepResult
  | .none => []
  | .scalar r => [r]
  | .list rs => rs

/-- to_step_result (actions.py lines 74-101): the wrapper applied by the
StepClass metaclass to every Step subclass __call__.  A falsy result
(None, empty list, or scalar UNSET whose integer value is 0) is replaced
by [StepResult.OK]; a non-iterable result is wrapped in a list. -/
def to_step_result (res : PyVal) : List StepResult :=
  ensureIterable (if pyFalsy res then .list [.OK] else res)

/-- Mutable per-step state threaded through leaf-step executions:
the status attribute (starts UNSET) and the number of times the
attached action_fn callback has been invoked (the observable side
effect of Step.__call__). -/
structure StepState where
  status : StepResult
  actionCalls : Nat
deriving DecidableEq, Repr

/-- Step.__call__ (actions.py lines 253-258), unwrapped body: with no
action_fn it returns StepResult.ERROR without touching any state;
otherwise it invokes action_fn, sets status to OK and returns OK. -/
def stepCallRaw (hasCallback : Bool) (st : StepState) : PyVal × StepState :=
  if hasCallback then
    (.scalar .OK, { status := .OK, actionCalls := st.actionCalls + 1 })
  else
    (.scalar .ERROR, st)

/-- Step.__call__ as wrapped by the metaclass with to_step_result. -/
def stepCall (hasCallback : Bool) (st : StepState) : List StepResult × StepState :=
  (to_step_result (stepCallRaw hasCallback st).1, (stepCallRaw hasCallback st).2)

/-- Echo.__call__ (actions.py lines 385-387), unwrapped body: logs the
message and returns StepResult.OK.  It does not assign self.status. -/
def echoCallRaw (st : StepState) : PyVal × StepState :=
  (.scalar .OK, st)

/-- Echo.__call__ as wrapped by the metaclass with to_step_result. -/
def echoCall (st : StepState) : List StepResult × StepState :=
  (to_step_result (echoCallRaw st).1, (echoCallRaw st).2)

/-- Name of a StepResult member, as produced by self.status.name. -/
def statusName : StepResult → List Char
  | .UNSET => "UNSET".toList
  | .OK => "OK".toList
  | .CAN_CONTINUE => "CAN_CONTINUE".toList
  | .ERROR => "ERROR".toList

/-- Status tag "[{status.name}]" prepended by prepend_status. -/
def statusTag (st : StepResult) : List Char :=
  '[' :: (statusName st ++ [']'])

/-- prepend_status (actions.py lines 103-122): the wrapper applied by the
StepClass metaclass to every Step subclass __str__.  If self.status is
not UNSET the textual description is prefixed with "[{status.name}]";
otherwise the description is returned unchanged. -/
def prepend_status (status : StepResult) (base : List Char) : List Char :=
  if status = .UNSET then base else statusTag status ++ base

/-- Echo.__str__ at indentation level 0 (actions.py lines 381-383):
textwrap.indent with an empty indentation prefix returns the formatted
message unchanged. -/
def echoStr (message : List Char) : List Char :=
  "* echo: ".toList ++ message

/-- Exceptions a child step may raise out of its wrapped call, as far as
RequireAll.__call__ distinguishes them (actions.py lines 529-563):
plumbum.ProcessExecutionError, KeyboardInterrupt, and OSError. -/
inductive Exc where
  | procExec
  | keyboardInterrupt
  | osError
deriving DecidableEq, Repr

/-- Opaque behaviour of a (fresh) child step when called by a composite:
either the wrapped call returns normally with a result list, leaving the
child's own status at st, or it raises an exception (in which case the
child's own status stays at its initial UNSET). -/
inductive ChildBehavior where
  | ret (rs : List StepResult) (st : StepResult)
  | exn (e : Exc)
deriving DecidableEq, Repr

/-- Observable per-child record after a composite run: whether the child
was called at all, its final status attribute, and how many times its
onerror hook was invoked. -/
structure ChildTrace where
  called : Bool
  status : StepResult
  onerrorCalls : Nat
deriving DecidableEq, Repr

/-- Trace of a child a fail-fast composite never reached: not called,
status still UNSET, onerror never invoked. -/
def skippedTrace : ChildTrace :=
  { called := false, status := .UNSET, onerrorCalls := 0 }

/-- Trace of a child whose wrapped call returned normally and did not
trip the fail-fast check: called once, status as the child's body left
it, onerror not invoked. -/
def goodTrace : ChildBehavior → ChildTrace
  | .ret _ st => { called := true, status := st, onerrorCalls := 0 }
  | .exn _ => skippedTrace

/-- Results a child contributes to the accumulated result list of
RequireAll: its returned list on normal return, a single appended ERROR
when it raised one of the three handled exceptions. -/
def retResults : ChildBehavior → List StepResult
  | .ret rs _ => rs
  | .exn _ => [.ERROR]

/-- Observable outcome of one RequireAll.__call__ invocation: the result
list, the per-child traces (aligned with the children), the composite's
own final status attribute, and whether a KeyboardInterrupt was
re-raised out of the call. -/
structure RAOutput where
  results : List StepResult
  traces : List ChildTrace
  status : StepResult
  interrupted : Bool
deriving DecidableEq, Repr

/-- RequireAll.__call__ loop (actions.py lines 529-563), acting on fresh
children (all statuses initially UNSET), with the accumulated results
list made explicit.  Each iteration calls the child inside try/except:
ProcessExecutionError and OSError append ERROR without re-raising; a
KeyboardInterrupt invokes the child's onerror, appends ERROR, and
re-raises (the composite's own status is left unchanged, i.e. UNSET).
After the try block, if ERROR is in the accumulated results the current
child's status is set to ERROR, its onerror is invoked, the composite's
status is set to ERROR and the call returns immediately; otherwise the
loop continues, and after the last child the status settles OK. -/
def raRun : List StepResult → List ChildBehavior → RAOutput
  | acc, [] =>
      { results := acc, traces := [], status := .OK, interrupted := false }
  | acc, .ret rs st :: rest =>
      if StepResult.ERROR ∈ acc ++ rs then
        { results := acc ++ rs,
          traces := { called := true, status := .ERROR, onerrorCalls := 1 } ::
            rest.map (fun _ => skippedTrace),
          status := .ERROR, interrupted := false }
      else
        let out := raRun (acc ++ rs) rest
        { out with
          traces := { called := true, status := st, onerrorCalls := 0 } :: out.traces }
  | acc, .exn .keyboardInterrupt :: rest =>
      { results := acc ++ [.ERROR],
        traces := { called := true, status := .UNSET, onerrorCalls := 1 } ::
          rest.map (fun _ => skippedTrace),
        status := .UNSET, interrupted := true }
  | acc, .exn _ :: rest =>
      { results := acc ++ [.ERROR],
        traces := { called := true, status := .ERROR, onerrorCalls := 1 } ::
          rest.map (fun _ => skippedTrace),
        status := .ERROR, interrupted := false }

/-- RequireAll.__call__ on a fresh composite: the loop starting from an
empty results list. -/
def requireAllCall (children : List ChildBehavior) : RAOutput :=
  raRun [] children

/-- A child whose wrapped call returns normally with no ERROR anywhere
in its result list: it does not trip RequireAll's fail-fast check. -/
def isGood : ChildBehavior → Bool
  | .ret rs _ => decide (StepResult.ERROR ∉ rs)
  | .exn _ => false

/-- A child at which RequireAll fails fast without re-raising: a normal
return containing ERROR, or a ProcessExecutionError or OSError. -/
def isBad : ChildBehavior → Bool
  | .ret rs _ => decide (StepResult.ERROR ∈ rs)
  | .exn .keyboardInterrupt => false
  | .exn _ => true

/-- Execution context queried by Containerize (actions.py lines
576-586): whether the process already runs inside a container, and
whether the owning project declares a container image. -/
structure ProjectCtx where
  inContainer : Bool
  hasContainerImage : Bool
deriving DecidableEq, Repr

/-- Containerize.requires_redirect (actions.py lines 576-578): true iff
not inside a container and the project declares a container image. -/
def requires_redirect (p : ProjectCtx) : Bool :=
  !p.inContainer && p.hasContainerImage

/-- Observable outcome of one Containerize.__call__ invocation: the
RequireAll observables plus the number of project.redirect calls. -/
structure CtzOutput where
  results : List StepResult
  traces : List ChildTrace
  status : StepResult
  interrupted : Bool
  redirectCalls : Nat
deriving DecidableEq, Repr

/-- Containerize.__call__ (actions.py lines 580-586): if
requires_redirect, invoke project.redirect, set status OK and return it
(wrapped by to_step_result into [OK]) without touching any child;
otherwise fall through to RequireAll.__call__ on the same children. -/
def containerizeCall (p : ProjectCtx) (children : List ChildBehavior) : CtzOutput :=
  if requires_redirect p then
    { results := to_step_result (.scalar .OK),
      traces := children.map (fun _ => skippedTrace),
      status := .OK, interrupted := false, redirectCalls := 1 }
  else
    let out := requireAllCall children
    { results := out.results, traces := out.traces, status := out.status,
      interrupted := out.interrupted, redirectCalls := 0 }

/-- Element of the results list built by Any.__call__: the list starts
with the scalar StepResult.OK and each child's returned result list is
appended as a single element (results.append(result), not extend), so
the list is heterogeneous: scalars and sublists. -/
inductive ResEntry where
  | scalar (r : StepResult)
  | sublist (rs : List StepResult)
deriving DecidableEq, Repr

/-- Python membership test "StepResult.ERROR in results" on the
heterogeneous results list of Any.__call__: an IntEnum member compares
equal only to a scalar entry of the same value, never to a sublist. -/
def pyMem (x : StepResult) : List ResEntry → Bool
  | [] => false
  | .scalar s :: rest => s = x || pyMem x rest
  | .sublist _ :: rest => pyMem x rest

/-- Observable outcome of one Any.__call__ invocation: the (nested)
results list, the composite's settled status, and the number of child
calls performed. -/
structure AnyOutput where
  results : List ResEntry
  status : StepResult
  executed : Nat
deriving DecidableEq, Repr

/-- Loop body of Any.__call__ (actions.py lines 413-423): every child is
called, its result list is appended to results as one element, and a
warning is logged (no control-flow effect) when the child's own list
contains ERROR. -/
def anyLoop : List (List StepResult) → List ResEntry → Nat → List ResEntry × Nat
  | [], acc, cnt => (acc, cnt)
  | rs :: rest, acc, cnt => anyLoop rest (acc ++ [.sublist rs]) (cnt + 1)

/-- Any.__call__ (actions.py lines 413-427), acting on children whose
wrapped calls return the given result lists: results starts as
[StepResult.OK], every child runs regardless of prior failures, then
status is set to OK and flipped to CAN_CONTINUE if "StepResult.ERROR in
results" holds on the heterogeneous list. -/
def anyCall (children : List (List StepResult)) : AnyOutput :=
  let run := anyLoop children [.scalar .OK] 0
  { results := run.1,
    status := if pyMem .ERROR run.1 then .CAN_CONTINUE else .OK,
    executed := run.2 }

/-- Persisted experiment record as touched by begin_transaction and
end_transaction: the begin and end timestamps, absent when the record
was never opened or closed (times as naturals). -/
structure ExpRecord where
  beginTime : Option Nat
  endTime : Option Nat
deriving DecidableEq, Repr

/-- Begin-timestamp merge of Experiment.begin_transaction (actions.py
lines 448-451): datetime.now() if no begin time is recorded, otherwise
min of the recorded value and now. -/
def mergeBegin (existing : Option Nat) (now : Nat) : Nat :=
  match existing with
  | none => now
  | some b => min b now

/-- End-timestamp merge of Experiment.end_transaction (actions.py lines
467-470): datetime.now() if no end time is recorded, otherwise max of
the recorded value and now. -/
def mergeEnd (existing : Option Nat) (now : Nat) : Nat :=
  match existing with
  | none => now
  | some e => max e now

/-- Process-wide transaction bookkeeping observed around one
Experiment.__call__: how many times begin_transaction and
end_transaction committed, and how many signal handlers are currently
registered. -/
structure TxState where
  beginCount : Nat
  endCount : Nat
  handlersRegistered : Nat
deriving DecidableEq, Repr

/-- Experiment.begin_transaction (actions.py lines 446-462): persists
the experiment, merges the begin timestamp with min, commits, and
registers the end_transaction signal handler. -/
def begin_transaction (r : ExpRecord) (now : Nat) (tx : TxState) : ExpRecord × TxState :=
  ({ r with beginTime := some (mergeBegin r.beginTime now) },
   { tx with beginCount := tx.beginCount + 1,
             handlersRegistered := tx.handlersRegistered + 1 })

/-- Experiment.end_transaction (actions.py lines 464-474): merges the
end timestamp with max and commits. -/
def end_transaction (r : ExpRecord) (now : Nat) (tx : TxState) : ExpRecord × TxState :=
  ({ r with endTime := some (mergeEnd r.endTime now) },
   { tx with endCount := tx.endCount + 1 })

/-- signals.handlers.deregister of the end_transaction handler, executed
in the finally block of Experiment.__call__. -/
def deregister (tx : TxState) : TxState :=
  { tx with handlersRegistered := tx.handlersRegistered - 1 }

/-- Outcome of the worker-pool phase of Experiment.__run_children: the
pool either completes every child and yields their result lists, or a
KeyboardInterrupt or some other exception escapes pool.map. -/
inductive PoolOutcome where
  | completed (rss : List (List StepResult))
  | interrupted
  | excRaised
deriving DecidableEq, Repr

/-- Experiment.__run_children (actions.py lines 476-494): on completion
the per-child result lists are flattened with itertools.chain; a
KeyboardInterrupt or any other exception is caught, logged, and turned
into a single ERROR appended to the (still empty) results list, so the
method always returns normally. -/
def run_children (o : PoolOutcome) : List StepResult :=
  match o with
  | .completed rss => rss.flatten
  | .interrupted => [.ERROR]
  | .excRaised => [.ERROR]

/-- Experiment.__call__ (actions.py lines 496-506): begin_transaction,
then __run_children inside try, with end_transaction and the handler
deregistration in the finally block; afterwards status is set to
max(results).  Returns (results, settled status, record, tx state). -/
def experimentCall (r : ExpRecord) (nowB nowE : Nat) (o : PoolOutcome)
    (tx : TxState) : List StepResult × StepResult × ExpRecord × TxState :=
  let b := begin_transaction r nowB tx
  let results := run_children o
  let e := end_transaction b.1 nowE b.2
  (results, listMax results, e.1, deregister e.2)

/-- The loop of Any.__call__ visits every child: it appends one sublist
entry per child and counts every child exactly once. -/
theorem anyLoop_spec (children : List (List StepResult)) (acc : List ResEntry) (cnt : Nat) :
    anyLoop children acc cnt = (acc ++ children.map ResEntry.sublist, cnt + children.length) := by
  induction children generalizing acc cnt with
  | nil => simp [anyLoop]
  | cons rs rest ih =>
    simp [anyLoop, ih]
    omega

/-- A scalar StepResult is never a member (in the Python sense) of a
list consisting solely of sublist entries. -/
theorem pyMem_map_sublist (x : StepResult) (children : List (List StepResult)) :
    pyMem x (children.map ResEntry.sublist) = false := by
  induction children with
  | nil => rfl
  | cons rs rest ih => simpa [pyMem] using ih

/-- C1: the claim says an Any composite runs every child and settles to
CAN_CONTINUE whenever ERROR is present among the collected child
results.  The code runs every child (for three children the executed
count is 3), but results.append nests each child's result list as a
single element, so the shallow membership test "StepResult.ERROR in
results" never finds a scalar ERROR and the status always settles OK:
the CAN_CONTINUE branch is unreachable.  In particular, for children
returning [OK], [ERROR], [OK], the status settles OK, not CAN_CONTINUE. -/
theorem c1_any_settles_ok_despite_error :
    (∀ children, (anyCall children).status = StepResult.OK) ∧
    anyCall [[.OK], [.ERROR], [.OK]] =
      { results := [.scalar .OK, .sublist [.OK], .sublist [.ERROR], .sublist [.OK]],
        status := .OK, executed := 3 } := by
  constructor
  · intro children
    simp [anyCall, anyLoop_spec, pyMem, pyMem_map_sublist]
  · rfl

/-- C2: on every exit path of Experiment.__call__ (normal completion of
the pool, worker-side KeyboardInterrupt, or any other worker exception),
begin_transaction and end_transaction each commit exactly once, the
signal handler registration is balanced, and an interrupt or unexpected
exception is converted into the single result entry [ERROR] instead of
propagating. -/
theorem c2_end_transaction_exactly_once (r : ExpRecord) (nB nE : Nat)
    (o : PoolOutcome) (tx : TxState) :
    (experimentCall r nB nE o tx).2.2.2.beginCount = tx.beginCount + 1 ∧
    (experimentCall r nB nE o tx).2.2.2.endCount = tx.endCount + 1 ∧
    (experimentCall r nB nE o tx).2.2.2.handlersRegistered = tx.handlersRegistered ∧
    (experimentCall r nB nE .interrupted tx).1 = [StepResult.ERROR] ∧
    (experimentCall r nB nE .excRaised tx).1 = [StepResult.ERROR] := by
  refine ⟨rfl, rfl, ?_, rfl, rfl⟩
  simp [experimentCall, begin_transaction, end_transaction, deregister]

/-- A run of RequireAll over children that all return normally without
ERROR anywhere: every child is called in order, the results concatenate,
no onerror fires, and the composite settles OK. -/
theorem raRun_all_good (children : List ChildBehavior) (acc : List StepResult)
    (hacc : StepResult.ERROR ∉ acc) (hg : ∀ c ∈ children, isGood c = true) :
    raRun acc children =
      { results := acc ++ (children.map retResults).flatten,
        traces := children.map goodTrace,
        status := .OK, interrupted := false } := by
  induction children generalizing acc with
  | nil => simp [raRun]
  | cons c rest ih =>
    have hc : isGood c = true := hg c (List.mem_cons_self c rest)
    cases c with
    | ret rs st =>
      have hrs : StepResult.ERROR ∉ rs := of_decide_eq_true hc
      have hacc2 : StepResult.ERROR ∉ acc ++ rs := by
        simp only [List.mem_append]
        rintro (h | h)
        · exact hacc h
        · exact hrs h
      have hrest : ∀ c ∈ rest, isGood c = true :=
        fun c hmem => hg c (List.mem_cons_of_mem _ hmem)
      simp only [raRun, List.append_eq, if_neg hacc2]
      rw [ih (acc ++ rs) hacc2 hrest]
      simp [goodTrace, retResults, List.append_assoc]
    | exn e => simp [isGood] at hc

/-- A run of RequireAll whose first offending child either returns a
result list containing ERROR or raises ProcessExecutionError or
OSError: all earlier (good) children run, the offending child's status
is forced to ERROR and its onerror fires once, the composite settles
ERROR and returns immediately, and no later sibling is called. -/
theorem raRun_fail_fast (good : List ChildBehavior) (bad : ChildBehavior)
    (rest : List ChildBehavior) (acc : List StepResult)
    (hacc : StepResult.ERROR ∉ acc)
    (hg : ∀ c ∈ good, isGood c = true) (hb : isBad bad = true) :
    raRun acc (good ++ bad :: rest) =
      { results := acc ++ (good.map retResults).flatten ++ retResults bad,
        traces := good.map goodTrace ++
          ({ called := true, status := .ERROR, onerrorCalls := 1 } ::
            rest.map (fun _ => skippedTrace)),
        status := .ERROR, interrupted := false } := by
  induction good generalizing acc with
  | nil =>
    cases bad with
    | ret rs st =>
      have hrs : StepResult.ERROR ∈ rs := of_decide_eq_true hb
      have hmem : StepResult.ERROR ∈ acc ++ rs := List.mem_append_right acc hrs
      simp only [List.nil_append, raRun, if_pos hmem]
      simp [retResults]
    | exn e =>
      cases e with
      | procExec => simp [raRun, retResults]
      | keyboardInterrupt => simp [isBad] at hb
      | osError => simp [raRun, retResults]
  | cons c good' ih =>
    have hc : isGood c = true := hg c (List.mem_cons_self c good')
    cases c with
    | ret rs st =>
      have hrs : StepResult.ERROR ∉ rs := of_decide_eq_true hc
      have hacc2 : StepResult.ERROR ∉ acc ++ rs := by
        simp only [List.mem_append]
        rintro (h | h)
        · exact hacc h
        · exact hrs h
      have hrest : ∀ c ∈ good', isGood c = true :=
        fun c hmem => hg c (List.mem_cons_of_mem _ hmem)
      simp only [List.cons_append, raRun, List.append_eq, if_neg hacc2]
      rw [ih (acc ++ rs) hacc2 hrest]
      simp [goodTrace, retResults, List.append_assoc]
    | exn e => simp [isGood] at hc

/-- A run of RequireAll interrupted by KeyboardInterrupt at some child:
the earlier (good) children run, the interrupted child's onerror fires
once while its status stays UNSET, ERROR is appended to the results, the
interrupt is re-raised (interrupted = true) and no later sibling runs;
the composite's own status is left at UNSET. -/
theorem raRun_interrupt (good : List ChildBehavior) (rest : List ChildBehavior)
    (acc : List StepResult) (hacc : StepResult.ERROR ∉ acc)
    (hg : ∀ c ∈ good, isGood c = true) :
    raRun acc (good ++ .exn .keyboardInterrupt :: rest) =
      { results := acc ++ (good.map retResults).flatten ++ [.ERROR],
        traces := good.map goodTrace ++
          ({ called := true, status := .UNSET, onerrorCalls := 1 } ::
            rest.map (fun _ => skippedTrace)),
        status := .UNSET, interrupted := true } := by
  induction good generalizing acc with
  | nil => simp [raRun]
  | cons c good' ih =>
    have hc : isGood c = true := hg c (List.mem_cons_self c good')
    cases c with
    | ret rs st =>
      have hrs : StepResult.ERROR ∉ rs := of_decide_eq_true hc
      have hacc2 : StepResult.ERROR ∉ acc ++ rs := by
        simp only [List.mem_append]
        rintro (h | h)
        · exact hacc h
        · exact hrs h
      have hrest : ∀ c ∈ good', isGood c = true :=
        fun c hmem => hg c (List.mem_cons_of_mem _ hmem)
      simp only [List.cons_append, raRun, List.append_eq, if_neg hacc2]
      rw [ih (acc ++ rs) hacc2 hrest]
      simp [goodTrace, retResults, List.append_assoc]
    | exn e => simp [isGood] at hc

/-- C3: RequireAll executes children in declared order one at a time;
as soon as ERROR is present in the accumulated results after some child
(the offending child bad, preceded by good children), that child's
status is set to ERROR, its onerror is invoked, the composite settles
ERROR and returns immediately, so later siblings are never called and
their statuses remain UNSET; and a composite whose children all complete
without ERROR settles OK. -/
theorem c3_requireAll_fail_fast (good : List ChildBehavior) (bad : ChildBehavior)
    (rest : List ChildBehavior) (allgood : List ChildBehavior)
    (hg : ∀ c ∈ good, isGood c = true) (hb : isBad bad = true)
    (ha : ∀ c ∈ allgood, isGood c = true) :
    requireAllCall (good ++ bad :: rest) =
      { results := (good.map retResults).flatten ++ retResults bad,
        traces := good.map goodTrace ++
          ({ called := true, status := .ERROR, onerrorCalls := 1 } ::
            rest.map (fun _ => skippedTrace)),
        status := .ERROR, interrupted := false } ∧
    requireAllCall allgood =
      { results := (allgood.map retResults).flatten,
        traces := allgood.map goodTrace,
        status := .OK, interrupted := false } := by
  constructor
  · have h := raRun_fail_fast good bad rest [] (by simp) hg hb
    simpa [requireAllCall] using h
  · have h := raRun_all_good allgood [] (by simp) ha
    simpa [requireAllCall] using h

/-- Witness for C3 at the spec's scenario [Pass, Fail, Pass]: Pass
returns [OK] and settles its own status OK, Fail raises
ProcessExecutionError; the results are exactly those of Pass and Fail,
the third child is never called and stays UNSET. -/
theorem c3_witness :
    requireAllCall [.ret [.OK] .OK, .exn .procExec, .ret [.OK] .OK] =
      { results := [.OK, .ERROR],
        traces := [{ called := true, status := .OK, onerrorCalls := 0 },
                   { called := true, status := .ERROR, onerrorCalls := 1 },
                   { called := false, status := .UNSET, onerrorCalls := 0 }],
        status := .ERROR, interrupted := false } := by
  have h := c3_requireAll_fail_fast [.ret [.OK] .OK] (.exn .procExec)
    [.ret [.OK] .OK] [] (by decide) (by decide) (by decide)
  simpa [goodTrace, retResults, skippedTrace] using h.1

/-- C4: the wrapped execute of every Step returns a non-empty result
sequence, and a leaf Step with no callback attached returns exactly
[ERROR] while leaving its state (status, callback-invocation count)
untouched. -/
theorem c4_execute_nonempty (v : PyVal) (st : StepState) :
    to_step_result v ≠ [] ∧
    stepCall false st = ([StepResult.ERROR], st) := by
  constructor
  · cases v with
    | none => simp [to_step_result, pyFalsy, ensureIterable]
    | scalar r => cases r <;> simp [to_step_result, pyFalsy, ensureIterable]
    | list rs => cases rs <;> simp [to_step_result, pyFalsy, ensureIterable]
  · rfl

/-- C5: begin_transaction merges the begin timestamp with min, so an
already-recorded begin time is never moved forward; end_transaction
merges the end timestamp with max, so an already-recorded end time is
never moved backward. -/
theorem c5_timestamp_merge (b e now : Nat) (r : ExpRecord) (tx : TxState) :
    mergeBegin (some b) now = min b now ∧
    mergeBegin (some b) now ≤ b ∧
    mergeEnd (some e) now = max e now ∧
    e ≤ mergeEnd (some e) now ∧
    (begin_transaction { beginTime := some b, endTime := r.endTime } now tx).1.beginTime =
      some (min b now) ∧
    (end_transaction { beginTime := r.beginTime, endTime := some e } now tx).1.endTime =
      some (max e now) := by
  refine ⟨rfl, Nat.min_le_left b now, rfl, Nat.le_max_left e now, rfl, rfl⟩

/-- C6 counterexample: the claim says every concrete leaf, including
Echo and a Step executed without a callback, has a non-UNSET status once
execution has completed.  Executing a fresh Echo, or a fresh Step with
no callback, leaves status at UNSET: neither __call__ body assigns
self.status. -/
theorem c6_counterexample :
    (echoCall { status := .UNSET, actionCalls := 0 }).2.status = StepResult.UNSET ∧
    (stepCall false { status := .UNSET, actionCalls := 0 }).2.status = StepResult.UNSET :=
  ⟨rfl, rfl⟩

/-- C6 amended: status is UNSET before the first execution and never
reverts from a non-UNSET value to UNSET; a Step executed with a callback
settles status to OK; but Echo and a Step executed without a callback
leave status unchanged, so after their execution from a fresh state it
is still UNSET. -/
theorem c6_status_amended (st : StepState) :
    (stepCall true st).2.status = StepResult.OK ∧
    (stepCall false st).2 = st ∧
    (echoCall st).2 = st ∧
    (st.status ≠ .UNSET →
      (stepCall true st).2.status ≠ .UNSET ∧
      (stepCall false st).2.status ≠ .UNSET ∧
      (echoCall st).2.status ≠ .UNSET) := by
  exact ⟨rfl, rfl, rfl, fun h => ⟨by simp [stepCall, stepCallRaw], h, h⟩⟩

/-- Witness for the amended C6 at a concrete executed state. -/
theorem c6_amended_witness :
    (echoCall { status := StepResult.OK, actionCalls := 0 }).2.status ≠ StepResult.UNSET :=
  ((c6_status_amended { status := .OK, actionCalls := 0 }).2.2.2 (by decide)).2.2

/-- C7: for every step description whose raw text does not itself start
with a bracket (all __str__ bodies start with an asterisk, a space or a
newline), the rendered text starts with the status tag exactly when the
settled status is not UNSET. -/
theorem c7_status_tag_iff (status : StepResult) (base : List Char)
    (hb : ¬ ['['] <+: base) :
    (statusTag status <+: prepend_status status base ↔ status ≠ .UNSET) := by
  constructor
  · intro hpre hUN
    subst hUN
    have h1 : ['['] <+: statusTag .UNSET := ⟨statusName .UNSET ++ [']'], rfl⟩
    have h2 : statusTag .UNSET <+: base := by
      simpa [prepend_status] using hpre
    exact hb (h1.trans h2)
  · intro h
    simp only [prepend_status, if_neg h]
    exact List.prefix_append _ _

/-- Witness for C7: a settled Echo description carries the [OK] tag. -/
theorem c7_witness :
    statusTag StepResult.OK <+: prepend_status .OK (echoStr "hi".toList) :=
  (c7_status_tag_iff .OK (echoStr "hi".toList) (by decide)).mpr (by decide)

/-- C8: if the context is not already inside a container and declares a
container image (requires_redirect), Containerize invokes redirect once,
never calls a child, and settles OK returning [OK]; otherwise it behaves
exactly as RequireAll over the same children, with no redirect. -/
theorem c8_containerize_redirect (p : ProjectCtx) (children : List ChildBehavior) :
    requires_redirect p = (!p.inContainer && p.hasContainerImage) ∧
    (requires_redirect p = true →
      containerizeCall p children =
        { results := [StepResult.OK],
          traces := children.map (fun _ => skippedTrace),
          status := .OK, interrupted := false, redirectCalls := 1 }) ∧
    (requires_redirect p = false →
      containerizeCall p children =
        { results := (requireAllCall children).results,
          traces := (requireAllCall children).traces,
          status := (requireAllCall children).status,
          interrupted := (requireAllCall children).interrupted,
          redirectCalls := 0 }) := by
  refine ⟨rfl, fun h => ?_, fun h => ?_⟩ <;>
    simp [containerizeCall, h, to_step_result, pyFalsy, ensureIterable]

/-- Witness for C8: outside a container, with a declared image, redirect
fires once and the single child is never executed. -/
theorem c8_witness :
    containerizeCall { inContainer := false, hasContainerImage := true }
        [.ret [.OK] .OK] =
      { results := [StepResult.OK],
        traces := [{ called := false, status := .UNSET, onerrorCalls := 0 }],
        status := .OK, interrupted := false, redirectCalls := 1 } := by
  have h := (c8_containerize_redirect
    { inContainer := false, hasContainerImage := true } [.ret [.OK] .OK]).2.1 (by decide)
  simpa [skippedTrace] using h

/-- C9: when a KeyboardInterrupt occurs during some child's execution in
RequireAll (after good children), that child's onerror is invoked,
ERROR is recorded for it in the results, and the interrupt is re-raised
past the composite boundary (interrupted = true), so no later sibling
runs. -/
theorem c9_requireAll_interrupt (good rest : List ChildBehavior)
    (hg : ∀ c ∈ good, isGood c = true) :
    requireAllCall (good ++ .exn .keyboardInterrupt :: rest) =
      { results := (good.map retResults).flatten ++ [StepResult.ERROR],
        traces := good.map goodTrace ++
          ({ called := true, status := .UNSET, onerrorCalls := 1 } ::
            rest.map (fun _ => skippedTrace)),
        status := .UNSET, interrupted := true } := by
  have h := raRun_interrupt good rest [] (by simp) hg
  simpa [requireAllCall] using h

/-- Witness for C9 with one good child before the interrupted one and
one sibling after it. -/
theorem c9_witness :
    requireAllCall [.ret [.OK] .OK, .exn .keyboardInterrupt, .ret [.OK] .OK] =
      { results := [.OK, .ERROR],
        traces := [{ called := true, status := .OK, onerrorCalls := 0 },
                   { called := true, status := .UNSET, onerrorCalls := 1 },
                   { called := false, status := .UNSET, onerrorCalls := 0 }],
        status := .UNSET, interrupted := true } := by
  have h := c9_requireAll_interrupt [.ret [.OK] .OK] [.ret [.OK] .OK] (by decide)
  simpa [goodTrace, retResults, skippedTrace] using h

/-- C10: the result-conversion wrapper maps every falsy body result
(None, the empty list, and the scalar StepResult.UNSET whose integer
value is 0) to [StepResult.OK], and its output is never empty. -/
theorem c10_falsy_becomes_ok (v : PyVal) :
    to_step_result .none = [StepResult.OK] ∧
    to_step_result (.list []) = [StepResult.OK] ∧
    to_step_result (.scalar .UNSET) = [StepResult.OK] ∧
    to_step_result v ≠ [] := by
  refine ⟨rfl, rfl, rfl, ?_⟩
  cases v with
  | none => simp [to_step_result, pyFalsy, ensureIterable]
  | scalar r => cases r <;> simp [to_step_result, pyFalsy, ensureIterable]
  | list rs => cases rs <;> simp [to_step_result, pyFalsy, ensureIterable]
